import Mathlib

/-!
# Asynchronous SGD for linear methods: handlers, server construction, worker gate

A shallow embedding of `learn/linear-new/async_sgd.h` and
`learn/linear/sgd/async_sgd.h`.

Conventions of the embedding.

* `Real` of the source is `float`.  The arithmetic of the update handlers is read
  over an ordered field `R`; the square root of `<cmath>` is a parameter
  `sqrt : R → R` of every function that calls it, and the theorems that need its
  properties instantiate `R := ℝ` and `sqrt := Real.sqrt`.
* `int` of the source is a 32-bit two's-complement integer: values are kept in `Int`
  and every arithmetic result is reduced by `wrap32`.
* A method that mutates its object returns the new object.
-/

namespace dmlc
namespace linear

/-! ## Machine integers -/

/-- The least value of a 32-bit signed `int`. -/
def INT_MIN : Int := -2147483648

/-- The greatest value of a 32-bit signed `int`. -/
def INT_MAX : Int := 2147483647

/-- Reduction of a mathematical integer to the 32-bit two's-complement range. -/
def wrap32 (x : Int) : Int := (x + 2147483648) % 4294967296 - 2147483648

/-- Feature identifier, `ps::Key` in the source (an unsigned 64-bit integer). -/
abbrev FeaID := Nat

/-! ## Penalty and progress record (declared outside these files) -/

/-- Modelled from the spec: the `L1L2<Real>` penalty of `penalty.h`, which is not among the
sources.  It carries the two proximal penalties λ₁ and λ₂. -/
structure L1L2 (R : Type) where
  lambda1 : R
  lambda2 : R

namespace L1L2

variable {R : Type}

/-- Modelled from the spec: a freshly constructed penalty (`penalty.h` is not among the
sources); both setters are called before any use. -/
def init [Zero R] : L1L2 R := { lambda1 := 0, lambda2 := 0 }

/-- Modelled from the spec: setter of λ₁ declared in `penalty.h`. -/
def set_lambda1 (p : L1L2 R) (v : R) : L1L2 R := { p with lambda1 := v }

/-- Modelled from the spec: setter of λ₂ declared in `penalty.h`. -/
def set_lambda2 (p : L1L2 R) (v : R) : L1L2 R := { p with lambda2 := v }

/-- Sign of a number as an element of the field: `1`, `-1` or `0`. -/
def sgn [LinearOrderedField R] (u : R) : R :=
  if 0 < u then 1 else if u < 0 then -1 else 0

/-- Modelled from the spec: `L1L2::Solve` of `penalty.h`, which is not part of these files.
The spec gives `Prox(u, η) = sign(u) · max(0, |u| − λ₁) / (η + λ₂)` when `|u| > λ₁`,
else `0`. -/
def Solve [LinearOrderedField R] (p : L1L2 R) (u eta : R) : R :=
  if |u| > p.lambda1 then sgn u * max 0 (|u| - p.lambda1) / (eta + p.lambda2) else 0

end L1L2

/-- Modelled from the spec: the progress record `Progress` (declared in `linear.h`, which is
not part of these files): counters and sums, merged componentwise, with the zero record as
the freshly constructed value. -/
structure Progress where
  num_ex : Int
  count : Int
  nnz_w : Int
  nnz_V : Int
  objv : ℚ
  auc : ℚ
deriving DecidableEq

namespace Progress

/-- Modelled from the spec: the freshly constructed progress record is the zero record. -/
def zero : Progress :=
  { num_ex := 0, count := 0, nnz_w := 0, nnz_V := 0, objv := 0, auc := 0 }

/-- Modelled from the spec: `Merge(a, b)` adds counters componentwise. -/
def Merge (a b : Progress) : Progress :=
  { num_ex := a.num_ex + b.num_ex, count := a.count + b.count,
    nnz_w := a.nnz_w + b.nnz_w, nnz_V := a.nnz_V + b.nnz_V,
    objv := a.objv + b.objv, auc := a.auc + b.auc }

end Progress

/-! ## The base handle -/

/-- The base handle `ISGDHandle`: penalty, learning-rate parameters `alpha`, `beta`, and
whether the `reporter` callback is set. -/
structure ISGDHandle (R : Type) where
  penalty : L1L2 R
  alpha : R
  beta : R
  reporter : Bool

namespace ISGDHandle

variable {R : Type}

/-- A default-constructed base handle: `alpha = 0.1`, `beta = 1`, no reporter. -/
def init [LinearOrderedField R] : ISGDHandle R :=
  { penalty := L1L2.init, alpha := 1 / 10, beta := 1, reporter := false }

/-- The base `Start(push, timestamp, cmd, msg)`: empty body. -/
def Start (h : ISGDHandle R) (_push : Bool) (_timestamp _cmd : Int) : ISGDHandle R := h

/-- The method `Report(cur_w, old_w)`: empty body, the handle is returned as it was. -/
def Report (h : ISGDHandle R) (_cur_w _old_w : R) : ISGDHandle R := h

/-- The method `Finish()`: constructs a fresh `Progress` and, when the reporter is set,
passes it to the reporter.  The result is the record handed to the reporter, if any. -/
def Finish (h : ISGDHandle R) : Option Progress :=
  let prog := Progress.zero
  if h.reporter then some prog else none

end ISGDHandle

/-! ## Standard SGD -/

/-- The handle `SGDHandle`: base handle, iteration count `t`, and `eta`. -/
structure SGDHandle (R : Type) extends ISGDHandle R where
  t : Int
  eta : R

namespace SGDHandle

variable {R : Type}

/-- A default-constructed `SGDHandle` over a given base: `t = 1`, `eta = 0`. -/
def init [Zero R] (b : ISGDHandle R) : SGDHandle R :=
  { toISGDHandle := b, t := 1, eta := 0 }

/-- The method `SGDHandle::Start`: on a push batch set `eta` from the current `t`, then
`t += 1` (on a 32-bit `int`). -/
def Start [LinearOrderedField R] (sqrt : R → R) (h : SGDHandle R) (push : Bool)
    (_timestamp _cmd : Int) : SGDHandle R :=
  if push then
    { h with eta := (h.beta + sqrt ((h.t : Int) : R)) / h.alpha, t := wrap32 (h.t + 1) }
  else h

/-- The method `SGDHandle::Push` with `g = grad[0]`: returns the handle after `Report`
and the new weight. -/
def Push [LinearOrderedField R] (h : SGDHandle R) (_key : FeaID) (g : R) (w : R) :
    SGDHandle R × R :=
  let old_w := w
  let w1 := h.penalty.Solve (h.eta * w - g) h.eta
  ({ h with toISGDHandle := h.toISGDHandle.Report w1 old_w }, w1)

/-- The method `SGDHandle::Pull`: `send[0] = w`.  Returns the weight (a `const`
reference) and the blob. -/
def Pull (_h : SGDHandle R) (_key : FeaID) (w : R) (send : List R) : R × List R :=
  (w, send.set 0 w)

end SGDHandle

/-! ## AdaGrad -/

/-- The entry `AdaGradEntry`; a new entry is `{w = 0, sq_cum_grad = 0}`. -/
structure AdaGradEntry (R : Type) where
  w : R
  sq_cum_grad : R

/-- The zero-initialised `AdaGradEntry`. -/
def AdaGradEntry.init {R : Type} [Zero R] : AdaGradEntry R := { w := 0, sq_cum_grad := 0 }

namespace AdaGradHandle

variable {R : Type}

/-- The method `AdaGradHandle::Init`: empty body. -/
def Init (_h : ISGDHandle R) (_key : FeaID) (val : AdaGradEntry R) : AdaGradEntry R := val

/-- The method `AdaGradHandle::Push` with `g = grad[0]`. -/
def Push [LinearOrderedField R] (sqrt : R → R) (h : ISGDHandle R) (_key : FeaID) (g : R)
    (val : AdaGradEntry R) : ISGDHandle R × AdaGradEntry R :=
  -- update cum grad
  let sqrt_n := val.sq_cum_grad
  let sq_cum_grad := sqrt (sqrt_n * sqrt_n + g * g)
  -- update w
  let eta := (sq_cum_grad + h.beta) / h.alpha
  let old_w := val.w
  let w := h.penalty.Solve (eta * old_w - g) eta
  (h.Report w old_w, { w := w, sq_cum_grad := sq_cum_grad })

/-- The method `AdaGradHandle::Pull`: `send[0] = val.w`.  Returns the entry (a `const`
reference) and the blob. -/
def Pull (_h : ISGDHandle R) (_key : FeaID) (val : AdaGradEntry R) (send : List R) :
    AdaGradEntry R × List R :=
  (val, send.set 0 val.w)

end AdaGradHandle

/-! ## FTRL -/

/-- The entry `FTRLEntry`; a new entry is `{w = 0, z = 0, sq_cum_grad = 0}`. -/
structure FTRLEntry (R : Type) where
  w : R
  z : R
  sq_cum_grad : R

/-- The zero-initialised `FTRLEntry`. -/
def FTRLEntry.init {R : Type} [Zero R] : FTRLEntry R := { w := 0, z := 0, sq_cum_grad := 0 }

namespace FTRLHandle

variable {R : Type}

/-- The method `FTRLHandle::Init`: empty body. -/
def Init (_h : ISGDHandle R) (_key : FeaID) (val : FTRLEntry R) : FTRLEntry R := val

/-- The method `FTRLHandle::Push` with `g = grad[0]`. -/
def Push [LinearOrderedField R] (sqrt : R → R) (h : ISGDHandle R) (_key : FeaID) (g : R)
    (val : FTRLEntry R) : ISGDHandle R × FTRLEntry R :=
  -- update cum grad
  let sqrt_n := val.sq_cum_grad
  let sq_cum_grad := sqrt (sqrt_n * sqrt_n + g * g)
  -- update z
  let old_w := val.w
  let sigma := (sq_cum_grad - sqrt_n) / h.alpha
  let z := val.z + (g - sigma * old_w)
  -- update w
  let w := h.penalty.Solve (-z) ((h.beta + sq_cum_grad) / h.alpha)
  (h.Report w old_w, { w := w, z := z, sq_cum_grad := sq_cum_grad })

/-- The method `FTRLHandle::Pull`: `send[0] = val.w`.  Returns the entry (a `const`
reference) and the blob. -/
def Pull (_h : ISGDHandle R) (_key : FeaID) (val : FTRLEntry R) (send : List R) :
    FTRLEntry R × List R :=
  (val, send.set 0 val.w)

end FTRLHandle

/-! ## Sequences of calls made by the key-value server

`ps::OnlineServer` (not part of these files) calls `Start` once per batch, then `Push` once
per key of the batch, then `Finish`.  The functions below compose the handle methods in
that order. -/

/-- One push batch on an `SGDHandle`: `Start(push = true)`, then `Push` for each
`(key, gradient, weight)` of the batch.  Returns the handle and the new weights. -/
def SGDHandle.batch {R : Type} [LinearOrderedField R] (sqrt : R → R) (h : SGDHandle R)
    (ps : List (FeaID × R × R)) : SGDHandle R × List R :=
  ps.foldl (fun acc p => let r := acc.1.Push p.1 p.2.1 p.2.2; (r.1, acc.2 ++ [r.2]))
    (h.Start sqrt true 0 0, [])

/-- A sequence of push batches on an `SGDHandle`. -/
def SGDHandle.batches {R : Type} [LinearOrderedField R] (sqrt : R → R) (h : SGDHandle R)
    (bs : List (List (FeaID × R × R))) : SGDHandle R :=
  bs.foldl (fun acc ps => (SGDHandle.batch sqrt acc ps).1) h

/-- The pushes `g_1, ..., g_k` applied in order to the entry of one key (AdaGrad). -/
def AdaGradHandle.pushes {R : Type} [LinearOrderedField R] (sqrt : R → R) (h : ISGDHandle R)
    (key : FeaID) (gs : List R) (val : AdaGradEntry R) : ISGDHandle R × AdaGradEntry R :=
  gs.foldl (fun acc g => AdaGradHandle.Push sqrt acc.1 key g acc.2) (h, val)

/-- The pushes `g_1, ..., g_k` applied in order to the entry of one key (FTRL). -/
def FTRLHandle.pushes {R : Type} [LinearOrderedField R] (sqrt : R → R) (h : ISGDHandle R)
    (key : FeaID) (gs : List R) (val : FTRLEntry R) : ISGDHandle R × FTRLEntry R :=
  gs.foldl (fun acc g => FTRLHandle.Push sqrt acc.1 key g acc.2) (h, val)

/-- Change of the number of non-zero weights when a weight goes from `old_w` to `new_w`,
as the spec words it: `+1` if `old_w == 0 ≠ new_w`, `-1` if `new_w == 0 ≠ old_w`. -/
def nnzDelta {R : Type} [Zero R] [DecidableEq R] (old_w new_w : R) : Int :=
  if old_w = 0 ∧ new_w ≠ 0 then 1 else if new_w = 0 ∧ old_w ≠ 0 then -1 else 0

/-! ## Server construction (`linear-new`) -/

/-- The enumeration `Config::Algo` (declared in `config.pb.h`, not part of these files): the
three named algorithms, and any other value of the field. -/
inductive Algo where
  | SGD
  | ADAGRAD
  | FTRL
  | OTHER (v : Int)
deriving DecidableEq

/-- The fields of `Config` (of `linear-new`) read by the server. -/
structure Config (R : Type) where
  algo : Algo
  lambda_l1 : R
  lambda_l2 : R
  lr_eta : Option R
  lr_beta : Option R

/-- The handle held by the server that `AsgdServer` created. -/
inductive ServerHandle (R : Type) where
  | sgd (h : SGDHandle R)
  | adagrad (h : ISGDHandle R)
  | ftrl (h : ISGDHandle R)

/-- The base part of the handle of a `ServerHandle`. -/
def ServerHandle.base {R : Type} : ServerHandle R → ISGDHandle R
  | .sgd h => h.toISGDHandle
  | .adagrad h => h
  | .ftrl h => h

namespace AsgdServer

variable {R : Type}

/-- The handle set up by `AsgdServer::CreateServer<Entry, Handle>`, on the base part `h` of
the default-constructed handle: penalties from the configuration, `alpha` and `beta`
overwritten when `lr_eta`, `lr_beta` are present. -/
def CreateServer (conf : Config R) (h : ISGDHandle R) : ISGDHandle R :=
  let h1 := { h with penalty := h.penalty.set_lambda1 conf.lambda_l1 }
  let h2 := { h1 with penalty := h1.penalty.set_lambda2 conf.lambda_l2 }
  let h3 := match conf.lr_eta with
    | some a => { h2 with alpha := a }
    | none => h2
  match conf.lr_beta with
  | some b => { h3 with beta := b }
  | none => h3

/-- The constructor `AsgdServer(conf)`: the created handle, or the fatal error. -/
def new [LinearOrderedField R] (conf : Config R) : Except String (ServerHandle R) :=
  let algo := conf.algo
  if algo = Algo.SGD then
    .ok (.sgd (SGDHandle.init (CreateServer conf ISGDHandle.init)))
  else if algo = Algo.ADAGRAD then
    .ok (.adagrad (CreateServer conf ISGDHandle.init))
  else if algo = Algo.FTRL then
    .ok (.ftrl (CreateServer conf ISGDHandle.init))
  else
    .error "unknown algo"

end AsgdServer

/-! ## `linear/sgd`: scheduler, server, worker -/

namespace sgd

/-- Command `kProcess`. -/
def kProcess : Int := 1

/-- Command `kSaveModel`. -/
def kSaveModel : Int := 2

/-- The enumeration `Workload::Type` (declared in the protocol files, not among the
sources): `TRAIN`, `VAL`, and any other value. -/
inductive WorkloadType where
  | TRAIN
  | VAL
  | OTHER (v : Int)
deriving DecidableEq

/-- The message `Workload`: its repeated field `file` and its type. -/
structure Workload where
  file : List String
  type : WorkloadType
deriving DecidableEq

/-- The accessor `file_size()` of `Workload`: the number of files. -/
def Workload.file_size (wl : Workload) : Int := (wl.file.length : Int)

/-- The fields of `Config` (of `linear/sgd`) read by server and worker. -/
structure Config (R : Type) where
  algo : Algo
  lr_eta : Option R
  lr_beta : Option R
  lambda : List R
  minibatch : Int
  max_delay : Int

/-- The fields of `FTRLHandle<FeaID, Real>` (declared in `sgd/sgd_server_handle.h`, not
part of these files) that `AsyncSGDServer::Init` assigns. -/
structure FTRLHandle (R : Type) where
  alpha : R
  beta : R
  lambda1 : R
  lambda2 : R
  tracker : Bool

namespace AsyncSGDServer

variable {R : Type}

/-- The method `AsyncSGDServer::Init`, on the default-constructed handle `updt` of the
key-value server: the configured handle that is run, or the fatal error. -/
def Init (conf : Config R) (updt : FTRLHandle R) : Except String (FTRLHandle R) :=
  let algo := conf.algo
  if algo = Algo.FTRL then
    let u1 := match conf.lr_eta with
      | some a => { updt with alpha := a }
      | none => updt
    let u2 := match conf.lr_beta with
      | some b => { u1 with beta := b }
      | none => u1
    let u3 := match conf.lambda with
      | l0 :: _ => { u2 with lambda1 := l0 }
      | [] => u2
    let u4 := match conf.lambda with
      | _ :: l1 :: _ => { u3 with lambda2 := l1 }
      | _ => u3
    .ok { u4 with tracker := true }
  else
    .error "unknown algo"

end AsyncSGDServer

/-! ### Worker -/

/-- The locals and counters that `AsyncSGDWorker::Process` sets before it reads. -/
structure ProcessSetup where
  mb_size : Int
  max_delay : Int
  num_mb_fly_ : Int
  num_mb_done_ : Int
deriving DecidableEq

namespace AsyncSGDWorker

/-- The first statements of `AsyncSGDWorker::Process`: minibatch size and window from the
workload type, counters reset.  `conf_.minibatch()*10` is an `int` product. -/
def Process {R : Type} (conf : Config R) (type : WorkloadType) : ProcessSetup :=
  let mb_size := if type = WorkloadType.TRAIN then conf.minibatch
    else max (wrap32 (conf.minibatch * 10)) 100000
  let max_delay := if type = WorkloadType.TRAIN then conf.max_delay else 100000
  { mb_size := mb_size, max_delay := max_delay, num_mb_fly_ := 0, num_mb_done_ := 0 }

end AsyncSGDWorker

/-- Where the reader thread of `Process` stands: at `reader.Next()`, after `ZPull` and
before `++num_mb_fly_`, inside the wait of the loop, or in the final wait. -/
inductive ReaderPc where
  | next
  | pulled
  | waiting
  | drain
deriving DecidableEq

/-- The gate of a worker: the counters guarded by `mb_mu_`, the position of the reader
thread, and the number of pulls issued whose `FinishMinibatch` has not run yet. -/
structure Gate where
  num_mb_fly_ : Int
  num_mb_done_ : Int
  pc : ReaderPc
  open_pulls : Nat
deriving DecidableEq

/-- The events of the gate. -/
inductive GateEvent where
  | pull
  | incr
  | wake
  | exhaust
  | finish
deriving DecidableEq

namespace Gate

/-- The gate when `Process` has reset the counters and is about to read. -/
def init : Gate := { num_mb_fly_ := 0, num_mb_done_ := 0, pc := .next, open_pulls := 0 }

/-- The method `FinishMinibatch`: `-- num_mb_fly_; ++ num_mb_done_`, for one open pull. -/
def FinishMinibatch (s : Gate) : Gate :=
  { s with num_mb_fly_ := wrap32 (s.num_mb_fly_ - 1),
           num_mb_done_ := wrap32 (s.num_mb_done_ + 1),
           open_pulls := s.open_pulls - 1 }

/-- One step of the gate with window `max_delay`; `none` when the event is not enabled.

* `pull`: `reader.Next()` returned true and `ZPull` was issued;
* `incr`: `++ num_mb_fly_` under the lock;
* `wake`: the wait of the loop returns, its predicate `max_delay >= num_mb_fly_` holding;
* `exhaust`: `reader.Next()` returned false;
* `finish`: a completion callback runs `FinishMinibatch`. -/
def step (max_delay : Int) (s : Gate) : GateEvent → Option Gate
  | .pull => if s.pc = .next then
      some { s with pc := .pulled, open_pulls := s.open_pulls + 1 } else none
  | .incr => if s.pc = .pulled then
      some { s with pc := .waiting, num_mb_fly_ := wrap32 (s.num_mb_fly_ + 1) } else none
  | .wake => if s.pc = .waiting ∧ max_delay ≥ s.num_mb_fly_ then
      some { s with pc := .next } else none
  | .exhaust => if s.pc = .next then some { s with pc := .drain } else none
  | .finish => if 0 < s.open_pulls then some (FinishMinibatch s) else none

/-- A run of the gate over a list of events. -/
def run (max_delay : Int) (s : Gate) : List GateEvent → Option Gate
  | [] => some s
  | e :: es => match step max_delay s e with
    | some s1 => run max_delay s1 es
    | none => none

/-- The states a train phase with window `max_delay` can reach. -/
def Reachable (max_delay : Int) (s : Gate) : Prop :=
  ∃ es : List GateEvent, run max_delay init es = some s

end Gate

/-! ### Scheduler -/

/-- The fields of `ps::Message` read by `ProcessResponse`. -/
structure Message where
  sender : String
  cmd : Int
  msg : String
deriving DecidableEq

/-- The fields of `ps::Task` set by `SendWorkload`. -/
structure Task where
  cmd : Int
  msg : String
deriving DecidableEq

/-- The operations of the collaborators of the scheduler that are declared outside
these files: `WorkloadPool::Finish`, `WorkloadPool::Get` (which fills a fresh
`Workload`), `Progress::Parse` and `Workload::SerializeToString`. -/
structure SchedulerEnv (P : Type) where
  Finish : P → String → P
  Get : P → String → P × Workload
  Parse : String → Progress
  Serialize : Workload → String

/-- The state of `AsyncSGDScheduler` touched by `ProcessResponse`: `prog_`, `pool_`, and
the tasks submitted so far with their recipients. -/
structure AsyncSGDScheduler (P : Type) where
  prog_ : Progress
  pool_ : P
  submitted : List (Task × String)

namespace AsyncSGDScheduler

variable {P : Type}

/-- The method `SendWorkload(id, wl)`: submit a `kProcess` task carrying the serialized
workload to `id`. -/
def SendWorkload (env : SchedulerEnv P) (s : AsyncSGDScheduler P) (id : String)
    (wl : Workload) : AsyncSGDScheduler P :=
  let wl_str := env.Serialize wl
  let task : Task := { cmd := kProcess, msg := wl_str }
  { s with submitted := s.submitted ++ [(task, id)] }

/-- The method `ProcessResponse(response)`. -/
def ProcessResponse (env : SchedulerEnv P) (s : AsyncSGDScheduler P) (response : Message) :
    AsyncSGDScheduler P :=
  if response.cmd = kProcess then
    let id := response.sender
    let s1 := if response.msg ≠ "" then
        { s with prog_ := s.prog_.Merge (env.Parse response.msg) }
      else s
    let s2 := { s1 with pool_ := env.Finish s1.pool_ id }
    let r := env.Get s2.pool_ id
    let s3 := { s2 with pool_ := r.1 }
    let wl := r.2
    if wl.file_size > 0 then SendWorkload env s3 id wl else s3
  else s

end AsyncSGDScheduler

/-- A pool that hands out its workloads in insertion order and returns the empty workload
when none is left; `Finish` keeps no record.  Used to run `ProcessResponse` on concrete
responses. -/
def queueEnv : SchedulerEnv (List Workload) where
  Finish := fun p _ => p
  Get := fun p _ => match p with
    | wl :: rest => (rest, wl)
    | [] => ([], { file := [], type := .TRAIN })
  Parse := fun m => { Progress.zero with num_ex := (m.length : Int) }
  Serialize := fun wl => String.join wl.file

/-- A scheduler with no progress yet, one validation partition left in the pool, and
nothing submitted. -/
def demoScheduler : AsyncSGDScheduler (List Workload) :=
  { prog_ := Progress.zero, pool_ := [{ file := ["part-1"], type := .VAL }], submitted := [] }

/-- A response of worker `W0` to a `kProcess` task, carrying a progress payload. -/
def demoResponse : Message := { sender := "W0", cmd := 1, msg := "abc" }

end sgd

/-- The invariant of the gate with window `max_delay`: the counter is a 32-bit value, and
when the window is below `INT_MAX` the counter equals the number of open pulls (less one
between `ZPull` and the increment) and is at most `max_delay`, or `max_delay + 1` while the
reader waits. -/
def sgd.Gate.Inv (max_delay : Int) (s : sgd.Gate) : Prop :=
  INT_MIN ≤ s.num_mb_fly_ ∧ s.num_mb_fly_ ≤ INT_MAX ∧
  (max_delay < INT_MAX →
    s.num_mb_fly_ = (s.open_pulls : Int) - (if s.pc = .pulled then 1 else 0) ∧
    s.num_mb_fly_ ≤ max_delay + (if s.pc = .waiting then 1 else 0))

/-- A default-constructed base handle whose `reporter` has been set. -/
def reportingHandle {R : Type} [LinearOrderedField R] : ISGDHandle R :=
  { (ISGDHandle.init : ISGDHandle R) with reporter := true }

/-- A configuration of `linear-new` that selects FTRL with `lr_beta = 0`, no `lr_eta`, and
zero penalties. -/
def zeroBetaConfig {R : Type} [LinearOrderedField R] : Config R :=
  { algo := .FTRL, lambda_l1 := 0, lambda_l2 := 0, lr_eta := none, lr_beta := some 0 }

/-- A configuration of `linear/sgd` with the given algorithm, minibatch size and window,
and nothing else set. -/
def sgd.plainConfig (algo : Algo) (minibatch max_delay : Int) : sgd.Config ℚ :=
  { algo := algo, lr_eta := none, lr_beta := none, lambda := [],
    minibatch := minibatch, max_delay := max_delay }

/-- The handle of scenario S2: α = 1, β = 1, λ₁ = 0.1, λ₂ = 0. -/
def s2Handle {R : Type} [LinearOrderedField R] : ISGDHandle R :=
  { penalty := { lambda1 := 1 / 10, lambda2 := 0 }, alpha := 1, beta := 1, reporter := false }

/-! # Theorems -/

/-! ## Auxiliary facts -/

theorem wrap32_eq_self (x : Int) (h1 : INT_MIN ≤ x) (h2 : x ≤ INT_MAX) : wrap32 x = x := by
  unfold INT_MIN at h1
  unfold INT_MAX at h2
  unfold wrap32
  omega

theorem SGDHandle.Push_fst {R : Type} [LinearOrderedField R] (h : SGDHandle R) (key : FeaID)
    (g w : R) : (h.Push key g w).1 = h := rfl

theorem SGDHandle.batch_foldl_fst {R : Type} [LinearOrderedField R]
    (ps : List (FeaID × R × R)) (acc : SGDHandle R × List R) :
    (ps.foldl (fun (acc : SGDHandle R × List R) p =>
        let r := acc.1.Push p.1 p.2.1 p.2.2; (r.1, acc.2 ++ [r.2])) acc).1 = acc.1 := by
  induction ps generalizing acc with
  | nil => rfl
  | cons p ps ih =>
    rw [List.foldl_cons, ih]
    rfl

theorem SGDHandle.batch_fst {R : Type} [LinearOrderedField R] (sqrt : R → R)
    (h : SGDHandle R) (ps : List (FeaID × R × R)) :
    (SGDHandle.batch sqrt h ps).1 = h.Start sqrt true 0 0 := by
  unfold SGDHandle.batch
  rw [SGDHandle.batch_foldl_fst]

theorem SGDHandle.batches_snoc {R : Type} [LinearOrderedField R] (sqrt : R → R)
    (h : SGDHandle R) (bs : List (List (FeaID × R × R))) (b : List (FeaID × R × R)) :
    SGDHandle.batches sqrt h (bs ++ [b]) =
      (SGDHandle.batches sqrt h bs).Start sqrt true 0 0 := by
  unfold SGDHandle.batches
  rw [List.foldl_append]
  simp only [List.foldl_cons, List.foldl_nil, SGDHandle.batch_fst]

theorem SGDHandle.batches_base {R : Type} [LinearOrderedField R] (sqrt : R → R)
    (h : SGDHandle R) (bs : List (List (FeaID × R × R))) :
    (SGDHandle.batches sqrt h bs).toISGDHandle = h.toISGDHandle := by
  induction bs using List.reverseRecOn with
  | nil => rfl
  | append_singleton bs b ih =>
    rw [SGDHandle.batches_snoc]
    simpa [SGDHandle.Start] using ih

theorem SGDHandle.batches_t {R : Type} [LinearOrderedField R] (sqrt : R → R)
    (h : SGDHandle R) (bs : List (List (FeaID × R × R)))
    (h1 : INT_MIN ≤ h.t) (h2 : h.t + bs.length ≤ INT_MAX) :
    (SGDHandle.batches sqrt h bs).t = h.t + bs.length := by
  induction bs using List.reverseRecOn with
  | nil => simp [SGDHandle.batches]
  | append_singleton bs b ih =>
    rw [SGDHandle.batches_snoc]
    simp only [List.length_append, List.length_singleton, Nat.cast_add, Nat.cast_one] at h2 ⊢
    have ih1 := ih (by omega)
    simp only [SGDHandle.Start, if_true, ih1]
    rw [wrap32_eq_self _ (by omega) (by omega)]
    ring

theorem SGDHandle.batches_eta {R : Type} [LinearOrderedField R] (sqrt : R → R)
    (h : SGDHandle R) (bs : List (List (FeaID × R × R))) (b : List (FeaID × R × R))
    (h1 : INT_MIN ≤ h.t) (h2 : h.t + bs.length ≤ INT_MAX) :
    (SGDHandle.batches sqrt h (bs ++ [b])).eta =
      (h.beta + sqrt (((h.t + bs.length : Int)) : R)) / h.alpha := by
  rw [SGDHandle.batches_snoc]
  have ht := SGDHandle.batches_t sqrt h bs h1 h2
  have hb := SGDHandle.batches_base sqrt h bs
  simp only [SGDHandle.Start, if_true, ht]
  rw [show (SGDHandle.batches sqrt h bs).beta = h.beta from congrArg ISGDHandle.beta hb,
    show (SGDHandle.batches sqrt h bs).alpha = h.alpha from congrArg ISGDHandle.alpha hb]

/-! ## Update handlers -/

theorem FTRLHandle.Push_snd {R : Type} [LinearOrderedField R] (sqrt : R → R)
    (h : ISGDHandle R) (key : FeaID) (g : R) (val : FTRLEntry R) :
    (FTRLHandle.Push sqrt h key g val).2 =
      { w := h.penalty.Solve
          (-(val.z + g - (sqrt (val.sq_cum_grad * val.sq_cum_grad + g * g)
              - val.sq_cum_grad) / h.alpha * val.w))
          ((h.beta + sqrt (val.sq_cum_grad * val.sq_cum_grad + g * g)) / h.alpha),
        z := val.z + g - (sqrt (val.sq_cum_grad * val.sq_cum_grad + g * g)
              - val.sq_cum_grad) / h.alpha * val.w,
        sq_cum_grad := sqrt (val.sq_cum_grad * val.sq_cum_grad + g * g) } := by
  simp only [FTRLHandle.Push, add_sub_assoc]

theorem s2_first_push (key : FeaID) :
    (FTRLHandle.Push Real.sqrt s2Handle key (1 / 2) FTRLEntry.init).2 =
      { w := -((1 / 2 - 1 / 10) / (3 / 2)), z := 1 / 2, sq_cum_grad := 1 / 2 } := by
  have hs : Real.sqrt ((0 : ℝ) * 0 + 1 / 2 * (1 / 2)) = 1 / 2 := by
    rw [zero_mul, zero_add]
    exact Real.sqrt_mul_self (by norm_num)
  have habs : |(1 / 2 : ℝ)| = 1 / 2 := abs_of_pos (by norm_num)
  have hmax : max (0 : ℝ) (1 / 2 - 1 / 10) = 1 / 2 - 1 / 10 := max_eq_right (by norm_num)
  simp only [FTRLHandle.Push, FTRLEntry.init, s2Handle, hs]
  simp only [L1L2.Solve, L1L2.sgn, mul_zero, sub_zero, zero_add, div_one, add_zero, abs_neg,
    habs, hmax]
  norm_num

/-- C1.  `FTRLHandle::Push` follows the FTRL-Proximal recurrences: for every handle, entry
`(w, z, n)` and gradient `g`, with `n1 = sqrt (n*n + g*g)` and `sigma = (n1 - n) / alpha`,
the entry after `Push` is `(w1, z1, n1)` where `z1 = z + g - sigma * w` (the old `w`) and
`w1 = Prox (-z1) ((beta + n1) / alpha)`.  In scenario S2 (α = 1, β = 1, λ₁ = 0.1, λ₂ = 0,
zero entry) the push of `0.5` gives `n = 0.5`, `z = 0.5`, `w = -(0.5 - 0.1) / 1.5`, and the
pushes of `-0.2` and `0.3` that follow again satisfy the recurrences. -/
theorem FTRLHandle.push_recurrence :
    (∀ (R : Type) [LinearOrderedField R] (sqrt : R → R) (h : ISGDHandle R) (key : FeaID)
        (g : R) (val : FTRLEntry R),
        let n1 := sqrt (val.sq_cum_grad * val.sq_cum_grad + g * g)
        let sigma := (n1 - val.sq_cum_grad) / h.alpha
        let z1 := val.z + g - sigma * val.w
        let w1 := h.penalty.Solve (-z1) ((h.beta + n1) / h.alpha)
        (FTRLHandle.Push sqrt h key g val).2 = { w := w1, z := z1, sq_cum_grad := n1 }) ∧
    (∀ key : FeaID,
        let e1 := (FTRLHandle.Push Real.sqrt s2Handle key (1 / 2) FTRLEntry.init).2
        let e2 := (FTRLHandle.Push Real.sqrt s2Handle key (-(1 / 5)) e1).2
        let e3 := (FTRLHandle.Push Real.sqrt s2Handle key (3 / 10) e2).2
        (e1.sq_cum_grad = 1 / 2 ∧ e1.z = 1 / 2 ∧ e1.w = -((1 / 2 - 1 / 10) / (3 / 2))) ∧
        (e2.sq_cum_grad = Real.sqrt (1 / 2 * (1 / 2) + -(1 / 5) * -(1 / 5)) ∧
          e2.z = 1 / 2 + -(1 / 5) - (e2.sq_cum_grad - 1 / 2) / 1 * e1.w ∧
          e2.w = (s2Handle : ISGDHandle ℝ).penalty.Solve (-e2.z) ((1 + e2.sq_cum_grad) / 1)) ∧
        (e3.sq_cum_grad = Real.sqrt (e2.sq_cum_grad * e2.sq_cum_grad + 3 / 10 * (3 / 10)) ∧
          e3.z = e2.z + 3 / 10 - (e3.sq_cum_grad - e2.sq_cum_grad) / 1 * e2.w ∧
          e3.w = (s2Handle : ISGDHandle ℝ).penalty.Solve (-e3.z) ((1 + e3.sq_cum_grad) / 1))) := by
  refine ⟨?_, ?_⟩
  · intro R _ sqrt h key g val
    exact FTRLHandle.Push_snd sqrt h key g val
  · intro key
    have h1 := s2_first_push key
    refine ⟨?_, ?_, ?_⟩
    · simp only [h1, and_self]
    · simp only [h1, FTRLHandle.Push_snd]
      simp only [s2Handle, and_self]
    · simp only [FTRLHandle.Push_snd (R := ℝ)]
      simp only [s2Handle, and_self]

/-- C4.  `AdaGradHandle::Push` follows the AdaGrad recurrence: for every handle, entry
`(w, n)` and gradient `g`, the entry after `Push` is `(w1, n1)` with
`n1 = sqrt (n*n + g*g)` and `w1 = Prox (eta * w - g) eta`, where `eta = (n1 + beta) / alpha`
uses the updated `n1`; and `Pull` on any entry writes exactly its `w` into `send[0]`,
leaving the entry and the rest of the blob as they were. -/
theorem AdaGradHandle.push_pull_recurrence :
    (∀ (R : Type) [LinearOrderedField R] (sqrt : R → R) (h : ISGDHandle R) (key : FeaID)
        (g : R) (val : AdaGradEntry R),
        let n1 := sqrt (val.sq_cum_grad * val.sq_cum_grad + g * g)
        let eta := (n1 + h.beta) / h.alpha
        let w1 := h.penalty.Solve (eta * val.w - g) eta
        (AdaGradHandle.Push sqrt h key g val).2 = { w := w1, sq_cum_grad := n1 }) ∧
    (∀ (R : Type) (h : ISGDHandle R) (key : FeaID) (val : AdaGradEntry R) (x : R)
        (xs : List R), AdaGradHandle.Pull h key val (x :: xs) = (val, val.w :: xs)) := by
  refine ⟨?_, ?_⟩
  · intro R _ sqrt h key g val
    rfl
  · intro R h key val x xs
    rfl

/-! ### The accumulated gradient norm -/

theorem AdaGradHandle.adagrad_pushes_norm (h : ISGDHandle ℝ) (key : FeaID) (gs : List ℝ)
    (val : AdaGradEntry ℝ) (S : ℝ) (hS : 0 ≤ S) (hv : val.sq_cum_grad = Real.sqrt S) :
    (AdaGradHandle.pushes Real.sqrt h key gs val).2.sq_cum_grad =
      Real.sqrt (S + (gs.map (fun g => g * g)).sum) := by
  unfold AdaGradHandle.pushes
  induction gs generalizing h val S with
  | nil => simpa using hv
  | cons g gs ih =>
    rw [List.foldl_cons, List.map_cons, List.sum_cons, ← add_assoc]
    refine ih _ _ (S + g * g) (add_nonneg hS (mul_self_nonneg g)) ?_
    simp only [AdaGradHandle.Push, hv, Real.mul_self_sqrt hS]

theorem FTRLHandle.ftrl_pushes_norm (h : ISGDHandle ℝ) (key : FeaID) (gs : List ℝ)
    (val : FTRLEntry ℝ) (S : ℝ) (hS : 0 ≤ S) (hv : val.sq_cum_grad = Real.sqrt S) :
    (FTRLHandle.pushes Real.sqrt h key gs val).2.sq_cum_grad =
      Real.sqrt (S + (gs.map (fun g => g * g)).sum) := by
  unfold FTRLHandle.pushes
  induction gs generalizing h val S with
  | nil => simpa using hv
  | cons g gs ih =>
    rw [List.foldl_cons, List.map_cons, List.sum_cons, ← add_assoc]
    refine ih _ _ (S + g * g) (add_nonneg hS (mul_self_nonneg g)) ?_
    simp only [FTRLHandle.Push, hv, Real.mul_self_sqrt hS]

/-- C2.  For `AdaGradHandle` and for `FTRLHandle`, with arithmetic over the reals: starting
from the zero-initialised entry (passed through `Init`) and pushing any finite sequence of gradients
`g_1, ..., g_k` to one key, the stored `sq_cum_grad` is non-negative and equals
`sqrt (g_1^2 + ... + g_k^2)`. -/
theorem sq_cum_grad_eq_sqrt_sum_sq :
    ∀ (h : ISGDHandle ℝ) (key : FeaID) (gs : List ℝ),
      (0 ≤ (AdaGradHandle.pushes Real.sqrt h key gs
            (AdaGradHandle.Init h key AdaGradEntry.init)).2.sq_cum_grad ∧
        (AdaGradHandle.pushes Real.sqrt h key gs
            (AdaGradHandle.Init h key AdaGradEntry.init)).2.sq_cum_grad =
          Real.sqrt ((gs.map (fun g => g ^ 2)).sum)) ∧
      (0 ≤ (FTRLHandle.pushes Real.sqrt h key gs
            (FTRLHandle.Init h key FTRLEntry.init)).2.sq_cum_grad ∧
        (FTRLHandle.pushes Real.sqrt h key gs
            (FTRLHandle.Init h key FTRLEntry.init)).2.sq_cum_grad =
          Real.sqrt ((gs.map (fun g => g ^ 2)).sum)) := by
  intro h key gs
  have e : (fun g : ℝ => g ^ 2) = (fun g : ℝ => g * g) := by
    funext g
    ring
  have ha := AdaGradHandle.adagrad_pushes_norm h key gs
    (AdaGradHandle.Init h key AdaGradEntry.init) 0 le_rfl
    (by simp [AdaGradEntry.init, AdaGradHandle.Init])
  have hf := FTRLHandle.ftrl_pushes_norm h key gs
    (FTRLHandle.Init h key FTRLEntry.init) 0 le_rfl
    (by simp [FTRLEntry.init, FTRLHandle.Init])
  rw [zero_add] at ha hf
  rw [e, ha, hf]
  exact ⟨⟨Real.sqrt_nonneg _, rfl⟩, ⟨Real.sqrt_nonneg _, rfl⟩⟩

/-! ### The learning-rate schedule of `SGDHandle` -/

/-- C3 (as amended).  `SGDHandle` keeps the documented learning-rate schedule while the
32-bit counter `t` stays below `INT_MAX`: `t` starts at 1; `Start` with `push = true` sets
`eta = (beta + sqrt t) / alpha` from the value of `t` before the call, keeps the base handle,
and increases `t` by exactly 1 when `t < INT_MAX`; `Start` with `push = false` changes
nothing; `Push` on weight `w` with gradient `g` replaces `w` by `Prox (eta * w - g) eta` and
leaves the handle as it was.  Hence for `k < INT_MAX`, after `k` push batches `t = k + 1`,
and the `eta` of batch number `k + 1` is `(beta + sqrt (k + 1)) / alpha`. -/
theorem SGDHandle.schedule :
    (∀ (R : Type) [LinearOrderedField R] (b : ISGDHandle R), (SGDHandle.init b).t = 1) ∧
    (∀ (R : Type) [LinearOrderedField R] (sqrt : R → R) (h : SGDHandle R) (ts cmd : Int),
        (h.Start sqrt true ts cmd).eta = (h.beta + sqrt ((h.t : Int) : R)) / h.alpha ∧
        (h.Start sqrt true ts cmd).toISGDHandle = h.toISGDHandle ∧
        (INT_MIN ≤ h.t → h.t < INT_MAX → (h.Start sqrt true ts cmd).t = h.t + 1)) ∧
    (∀ (R : Type) [LinearOrderedField R] (sqrt : R → R) (h : SGDHandle R) (ts cmd : Int),
        h.Start sqrt false ts cmd = h) ∧
    (∀ (R : Type) [LinearOrderedField R] (h : SGDHandle R) (key : FeaID) (g w : R),
        h.Push key g w = (h, h.penalty.Solve (h.eta * w - g) h.eta)) ∧
    (∀ (R : Type) [LinearOrderedField R] (sqrt : R → R) (b : ISGDHandle R)
        (bs : List (List (FeaID × R × R))), (bs.length : Int) < INT_MAX →
        (SGDHandle.batches sqrt (SGDHandle.init b) bs).t = (bs.length : Int) + 1) ∧
    (∀ (R : Type) [LinearOrderedField R] (sqrt : R → R) (b : ISGDHandle R)
        (bs : List (List (FeaID × R × R))) (ps : List (FeaID × R × R)),
        (bs.length : Int) < INT_MAX →
        (SGDHandle.batches sqrt (SGDHandle.init b) (bs ++ [ps])).eta =
          (b.beta + sqrt (((bs.length : Int) + 1 : Int) : R)) / b.alpha) := by
  refine ⟨?_, ?_, ?_, ?_, ?_, ?_⟩
  · intro R _ b
    rfl
  · intro R _ sqrt h ts cmd
    refine ⟨rfl, rfl, ?_⟩
    intro h1 h2
    simp only [SGDHandle.Start, if_true]
    exact wrap32_eq_self _ (by unfold INT_MIN at *; omega) (by omega)
  · intro R _ sqrt h ts cmd
    rfl
  · intro R _ h key g w
    rfl
  · intro R _ sqrt b bs hk
    have h := SGDHandle.batches_t sqrt (SGDHandle.init b) bs
      (by simp only [SGDHandle.init, INT_MIN]; omega) (by simp only [SGDHandle.init]; omega)
    rw [h]
    simp only [SGDHandle.init]
    ring
  · intro R _ sqrt b bs ps hk
    have h := SGDHandle.batches_eta sqrt (SGDHandle.init b) bs ps
      (by simp only [SGDHandle.init, INT_MIN]; omega) (by simp only [SGDHandle.init]; omega)
    rw [h]
    simp only [SGDHandle.init, add_comm]

/-- Instance of the schedule of C3: two push batches from a fresh handle leave `t = 3`, and
one `Start` from `t = 1` gives `t = 2`. -/
theorem SGDHandle.schedule_witness :
    ((([[], [(7, 1, 0)]] : List (List (FeaID × ℝ × ℝ))).length : Int) < INT_MAX ∧
      (SGDHandle.batches Real.sqrt (SGDHandle.init ISGDHandle.init)
        ([[], [(7, 1, 0)]] : List (List (FeaID × ℝ × ℝ)))).t =
        (([[], [(7, 1, 0)]] : List (List (FeaID × ℝ × ℝ))).length : Int) + 1) ∧
    (INT_MIN ≤ (SGDHandle.init (ISGDHandle.init : ISGDHandle ℝ)).t ∧
      (SGDHandle.init (ISGDHandle.init : ISGDHandle ℝ)).t < INT_MAX ∧
      ((SGDHandle.init (ISGDHandle.init : ISGDHandle ℝ)).Start Real.sqrt true 0 0).t =
        (SGDHandle.init (ISGDHandle.init : ISGDHandle ℝ)).t + 1) ∧
    ((([[]] : List (List (FeaID × ℝ × ℝ))).length : Int) < INT_MAX ∧
      (SGDHandle.batches Real.sqrt (SGDHandle.init ISGDHandle.init)
        (([[]] : List (List (FeaID × ℝ × ℝ))) ++ [[(7, 1, 0)]])).eta =
        ((ISGDHandle.init : ISGDHandle ℝ).beta +
          Real.sqrt ((((([[]] : List (List (FeaID × ℝ × ℝ))).length : Int) + 1 : Int)) : ℝ)) /
          (ISGDHandle.init : ISGDHandle ℝ).alpha) :=
  ⟨⟨by decide, SGDHandle.schedule.2.2.2.2.1 ℝ Real.sqrt ISGDHandle.init _ (by decide)⟩,
    ⟨by decide, by decide,
      (SGDHandle.schedule.2.1 ℝ Real.sqrt (SGDHandle.init ISGDHandle.init) 0 0).2.2
        (by decide) (by decide)⟩,
    ⟨by decide, SGDHandle.schedule.2.2.2.2.2 ℝ Real.sqrt ISGDHandle.init _ _ (by decide)⟩⟩

/-- C3, as stated, fails on the 32-bit counter: after `2^31 - 2` push batches `t` is
`INT_MAX`, the next `Start` with `push = true` wraps it to `INT_MIN` instead of adding 1, and
so after `k = 2^31 - 1` push batches `t` is not `k + 1`. -/
theorem SGDHandle.schedule_overflow :
    (SGDHandle.batches Real.sqrt (SGDHandle.init (ISGDHandle.init : ISGDHandle ℝ))
        (List.replicate 2147483646 [])).t = 2147483647 ∧
    ((SGDHandle.batches Real.sqrt (SGDHandle.init (ISGDHandle.init : ISGDHandle ℝ))
        (List.replicate 2147483646 [])).Start Real.sqrt true 0 0).t = -2147483648 ∧
    (SGDHandle.batches Real.sqrt (SGDHandle.init (ISGDHandle.init : ISGDHandle ℝ))
        (List.replicate 2147483647 [])).t ≠ 2147483647 + 1 := by
  have h0 := SGDHandle.batches_t Real.sqrt (SGDHandle.init (ISGDHandle.init : ISGDHandle ℝ))
    (List.replicate 2147483646 []) (by decide)
    (by rw [List.length_replicate]; decide)
  rw [List.length_replicate] at h0
  have h1 : (SGDHandle.batches Real.sqrt (SGDHandle.init (ISGDHandle.init : ISGDHandle ℝ))
      (List.replicate 2147483646 [])).t = 2147483647 := by
    rw [h0]
    rfl
  have h2 : ((SGDHandle.batches Real.sqrt (SGDHandle.init (ISGDHandle.init : ISGDHandle ℝ))
      (List.replicate 2147483646 [])).Start Real.sqrt true 0 0).t = -2147483648 := by
    simp only [SGDHandle.Start, if_true, h1]
    decide
  refine ⟨h1, h2, ?_⟩
  rw [show (2147483647 : Nat) = 2147483646 + 1 from rfl, List.replicate_succ',
    SGDHandle.batches_snoc, h2]
  decide

/-! ## The bounded-staleness gate -/

theorem sgd.Gate.Inv_init (d : Int) (hd : 0 ≤ d) : sgd.Gate.Inv d sgd.Gate.init := by
  unfold sgd.Gate.Inv sgd.Gate.init INT_MIN INT_MAX
  simp
  omega

theorem sgd.Gate.Inv_step (d : Int) (s s1 : sgd.Gate) (e : sgd.GateEvent)
    (hi : sgd.Gate.Inv d s) (hs : sgd.Gate.step d s e = some s1) : sgd.Gate.Inv d s1 := by
  obtain ⟨fly, done, pc, op⟩ := s
  unfold sgd.Gate.Inv INT_MIN INT_MAX at *
  cases e <;> cases pc <;>
    simp [sgd.Gate.step, sgd.Gate.FinishMinibatch, wrap32] at hs hi ⊢ <;>
    (try subst hs) <;> (try (obtain ⟨hs1, hs2⟩ := hs; subst hs2)) <;> simp <;> omega

theorem sgd.Gate.Inv_run (d : Int) (es : List sgd.GateEvent) (s s1 : sgd.Gate)
    (hi : sgd.Gate.Inv d s) (hr : sgd.Gate.run d s es = some s1) : sgd.Gate.Inv d s1 := by
  induction es generalizing s with
  | nil =>
    simp only [sgd.Gate.run, Option.some.injEq] at hr
    exact hr ▸ hi
  | cons e es ih =>
    simp only [sgd.Gate.run] at hr
    cases hstep : sgd.Gate.step d s e with
    | none => simp [hstep] at hr
    | some s2 =>
      rw [hstep] at hr
      exact ih s2 (sgd.Gate.Inv_step d s s2 e hi hstep) hr

theorem sgd.Gate.Inv_bound (d : Int) (s : sgd.Gate) (hi : sgd.Gate.Inv d s) :
    s.num_mb_fly_ ≤ d + 1 := by
  obtain ⟨h1, h2, h3⟩ := hi
  unfold INT_MIN INT_MAX at *
  by_cases hd : d < 2147483647
  · have h4 := (h3 hd).2
    split_ifs at h4 <;> omega
  · omega

/-- C5.  Bounded staleness: in the step relation of the gate (the reader thread increments
`num_mb_fly_` only after its previous wait returned with `max_delay >= num_mb_fly_`, and
`FinishMinibatch` decrements it), started from the reset counters, for every window
`max_delay >= 0` every reachable state has `num_mb_fly_ <= max_delay + 1`; with
`max_delay = 4` the counter never exceeds 5. -/
theorem sgd.Gate.bounded_staleness :
    (∀ (max_delay : Int), 0 ≤ max_delay → ∀ s : sgd.Gate, sgd.Gate.Reachable max_delay s →
        s.num_mb_fly_ ≤ max_delay + 1) ∧
    (∀ s : sgd.Gate, sgd.Gate.Reachable 4 s → s.num_mb_fly_ ≤ 5) := by
  have key : ∀ (d : Int), 0 ≤ d → ∀ s : sgd.Gate, sgd.Gate.Reachable d s →
      s.num_mb_fly_ ≤ d + 1 := by
    intro d hd s hr
    obtain ⟨es, hes⟩ := hr
    exact sgd.Gate.Inv_bound d s
      (sgd.Gate.Inv_run d es sgd.Gate.init s (sgd.Gate.Inv_init d hd) hes)
  exact ⟨key, fun s hr => key 4 (by decide) s hr⟩

/-- Instance of C5 with `max_delay = 4`: after four minibatches have passed the gate and a
fifth has been counted, none finished, the counter stands at 5, which is within the bound
`max_delay + 1`. -/
theorem sgd.Gate.bounded_staleness_witness :
    (0 : Int) ≤ 4 ∧
    sgd.Gate.Reachable 4
      { num_mb_fly_ := 5, num_mb_done_ := 0, pc := .waiting, open_pulls := 5 } ∧
    (5 : Int) ≤ 4 + 1 :=
  have hr : sgd.Gate.Reachable 4
      { num_mb_fly_ := 5, num_mb_done_ := 0, pc := .waiting, open_pulls := 5 } :=
    ⟨[.pull, .incr, .wake, .pull, .incr, .wake, .pull, .incr, .wake, .pull, .incr, .wake,
      .pull, .incr], by decide⟩
  ⟨by decide, hr, sgd.Gate.bounded_staleness.1 4 (by decide) _ hr⟩

/-! ## Progress reporting of the handlers -/

theorem AdaGradHandle.adagrad_pushes_fst {R : Type} [LinearOrderedField R] (sqrt : R → R)
    (h : ISGDHandle R) (key : FeaID) (gs : List R) (val : AdaGradEntry R) :
    (AdaGradHandle.pushes sqrt h key gs val).1 = h := by
  unfold AdaGradHandle.pushes
  induction gs generalizing val with
  | nil => rfl
  | cons g gs ih =>
    rw [List.foldl_cons]
    exact ih _

theorem FTRLHandle.ftrl_pushes_fst {R : Type} [LinearOrderedField R] (sqrt : R → R)
    (h : ISGDHandle R) (key : FeaID) (gs : List R) (val : FTRLEntry R) :
    (FTRLHandle.pushes sqrt h key gs val).1 = h := by
  unfold FTRLHandle.pushes
  induction gs generalizing val with
  | nil => rfl
  | cons g gs ih =>
    rw [List.foldl_cons]
    exact ih _

/-- C6 (as amended).  `Report(cur_w, old_w)` has an empty body and the handle keeps no
counter of non-zero weights: `Report` returns the handle as it was, every `Push` of
`SGDHandle`, `AdaGradHandle` and `FTRLHandle` leaves the handle as it was, and `Finish` hands
the reporter, when one is set, a freshly constructed progress record, whose `nnz_w` is 0
whatever was pushed in the batch. -/
theorem ISGDHandle.Report_keeps_no_count :
    (∀ (R : Type) (h : ISGDHandle R) (cur_w old_w : R), h.Report cur_w old_w = h) ∧
    (∀ (R : Type) [LinearOrderedField R] (sqrt : R → R) (h : ISGDHandle R) (key : FeaID)
        (g : R),
        (∀ (t : Int) (eta w : R),
          (SGDHandle.Push { toISGDHandle := h, t := t, eta := eta } key g w).1 =
            { toISGDHandle := h, t := t, eta := eta }) ∧
        (∀ val : AdaGradEntry R, (AdaGradHandle.Push sqrt h key g val).1 = h) ∧
        (∀ val : FTRLEntry R, (FTRLHandle.Push sqrt h key g val).1 = h)) ∧
    (∀ (R : Type) (h : ISGDHandle R),
        h.Finish = if h.reporter then some Progress.zero else none) ∧
    (∀ (R : Type) [LinearOrderedField R] (sqrt : R → R) (h : SGDHandle R)
        (ps : List (FeaID × R × R)),
        ((SGDHandle.batch sqrt h ps).1.Finish).map Progress.nnz_w =
          if h.reporter then some 0 else none) ∧
    (∀ (R : Type) [LinearOrderedField R] (sqrt : R → R) (h : ISGDHandle R) (key : FeaID)
        (gs : List R),
        (∀ val : AdaGradEntry R,
          ((AdaGradHandle.pushes sqrt h key gs val).1.Finish).map Progress.nnz_w =
            if h.reporter then some 0 else none) ∧
        (∀ val : FTRLEntry R,
          ((FTRLHandle.pushes sqrt h key gs val).1.Finish).map Progress.nnz_w =
            if h.reporter then some 0 else none)) := by
  refine ⟨fun _ _ _ _ => rfl, ?_, fun _ _ => rfl, ?_, ?_⟩
  · intro R _ sqrt h key g
    exact ⟨fun _ _ _ => rfl, fun _ => rfl, fun _ => rfl⟩
  · intro R _ sqrt h ps
    rw [SGDHandle.batch_fst]
    simp only [SGDHandle.Start, if_true, ISGDHandle.Finish]
    cases h.reporter <;> rfl
  · intro R _ sqrt h key gs
    refine ⟨?_, ?_⟩
    · intro val
      rw [AdaGradHandle.adagrad_pushes_fst]
      simp only [ISGDHandle.Finish]
      cases h.reporter <;> rfl
    · intro val
      rw [FTRLHandle.ftrl_pushes_fst]
      simp only [ISGDHandle.Finish]
      cases h.reporter <;> rfl

/-- C6, as stated, fails: in a push batch on a handle with the default parameters and a
reporter, the push of gradient 1 on a zero weight makes the weight `-1/20`, so the number of
non-zero weights grows by 1, but the record that `Finish` hands to the reporter has
`nnz_w = 0`. -/
theorem ISGDHandle.Report_misses_nonzero :
    ((SGDHandle.init (reportingHandle : ISGDHandle ℝ)).Start Real.sqrt true 0 0).eta = 20 ∧
    (((SGDHandle.init (reportingHandle : ISGDHandle ℝ)).Start Real.sqrt true 0 0).Push
        7 1 0).2 = -(1 / 20) ∧
    nnzDelta (0 : ℝ) (-(1 / 20)) = 1 ∧
    (SGDHandle.batch Real.sqrt (SGDHandle.init (reportingHandle : ISGDHandle ℝ))
        [(7, 1, 0)]).2 = [-(1 / 20)] ∧
    ((SGDHandle.batch Real.sqrt (SGDHandle.init (reportingHandle : ISGDHandle ℝ))
        [(7, 1, 0)]).1.Finish).map Progress.nnz_w = some 0 := by
  have heta : ((SGDHandle.init (reportingHandle : ISGDHandle ℝ)).Start
      Real.sqrt true 0 0).eta = 20 := by
    simp only [SGDHandle.Start, SGDHandle.init, reportingHandle, ISGDHandle.init, if_true,
      Int.cast_one, Real.sqrt_one]
    norm_num
  have hw : (((SGDHandle.init (reportingHandle : ISGDHandle ℝ)).Start
      Real.sqrt true 0 0).Push 7 1 0).2 = -(1 / 20) := by
    simp only [SGDHandle.Push, heta]
    simp only [SGDHandle.Start, SGDHandle.init, reportingHandle, ISGDHandle.init, if_true,
      L1L2.init, L1L2.Solve, L1L2.sgn]
    norm_num
  refine ⟨heta, hw, ?_, ?_, ?_⟩
  · simp [nnzDelta]
  · simp only [SGDHandle.batch, List.foldl_cons, List.foldl_nil, List.nil_append, hw]
  · rw [SGDHandle.batch_fst]
    rfl

/-! ## Server construction -/

/-- C7 (as amended).  `AsgdServer` (of `linear-new`) creates the SGD, AdaGrad or FTRL handle
when `algo` is `SGD`, `ADAGRAD` or `FTRL`, and reaches the fatal "unknown algo" branch if and
only if `algo` is none of the three.  `AsyncSGDServer` (of `linear/sgd`) creates a handle
when `algo` is `FTRL`, and reaches the fatal "unknown algo" branch if and only if `algo` is
not `FTRL`. -/
theorem server_algo_selection :
    (∀ (R : Type) [LinearOrderedField R] (conf : Config R),
        (conf.algo = Algo.SGD → AsgdServer.new conf =
          .ok (.sgd (SGDHandle.init (AsgdServer.CreateServer conf ISGDHandle.init)))) ∧
        (conf.algo = Algo.ADAGRAD → AsgdServer.new conf =
          .ok (.adagrad (AsgdServer.CreateServer conf ISGDHandle.init))) ∧
        (conf.algo = Algo.FTRL → AsgdServer.new conf =
          .ok (.ftrl (AsgdServer.CreateServer conf ISGDHandle.init))) ∧
        (AsgdServer.new conf = .error "unknown algo" ↔
          conf.algo ≠ Algo.SGD ∧ conf.algo ≠ Algo.ADAGRAD ∧ conf.algo ≠ Algo.FTRL)) ∧
    (∀ (R : Type) (conf : sgd.Config R) (updt : sgd.FTRLHandle R),
        (conf.algo = Algo.FTRL → ∃ u, sgd.AsyncSGDServer.Init conf updt = .ok u) ∧
        (sgd.AsyncSGDServer.Init conf updt = .error "unknown algo" ↔
          conf.algo ≠ Algo.FTRL)) := by
  refine ⟨?_, ?_⟩
  · intro R _ conf
    refine ⟨?_, ?_, ?_, ?_⟩
    · intro h
      simp [AsgdServer.new, h]
    · intro h
      simp [AsgdServer.new, h]
    · intro h
      simp [AsgdServer.new, h]
    · unfold AsgdServer.new
      by_cases h1 : conf.algo = Algo.SGD
      · simp [h1]
      · by_cases h2 : conf.algo = Algo.ADAGRAD
        · simp [h2]
        · by_cases h3 : conf.algo = Algo.FTRL
          · simp [h3]
          · simp [h1, h2, h3]
  · intro R conf updt
    unfold sgd.AsyncSGDServer.Init
    by_cases h : conf.algo = Algo.FTRL
    · simp [h]
    · simp [h]

/-- Instance of C7 (as amended): `AsgdServer` accepts a configuration with `algo = FTRL`,
and so does `AsyncSGDServer`. -/
theorem server_algo_selection_witness :
    ((zeroBetaConfig : Config ℚ).algo = Algo.FTRL ∧
      AsgdServer.new (zeroBetaConfig : Config ℚ) =
        .ok (.ftrl (AsgdServer.CreateServer zeroBetaConfig ISGDHandle.init))) ∧
    ((sgd.plainConfig .FTRL 1000 4).algo = Algo.FTRL ∧
      ∃ u, sgd.AsyncSGDServer.Init (sgd.plainConfig .FTRL 1000 4)
        { alpha := 1 / 10, beta := 1, lambda1 := 0, lambda2 := 0, tracker := false } = .ok u) :=
  ⟨⟨rfl, (server_algo_selection.1 ℚ zeroBetaConfig).2.2.1 rfl⟩,
    ⟨rfl, (server_algo_selection.2 ℚ (sgd.plainConfig .FTRL 1000 4) _).1 rfl⟩⟩

/-- C7, as stated, fails for `AsyncSGDServer` of `linear/sgd`: with `algo = SGD` and with
`algo = ADAGRAD`, two of the three named algorithms, `Init` reaches the fatal branch. -/
theorem sgd.AsyncSGDServer.Init_rejects_SGD :
    sgd.AsyncSGDServer.Init (sgd.plainConfig .SGD 1000 4)
        { alpha := 1 / 10, beta := 1, lambda1 := 0, lambda2 := 0, tracker := false } =
      .error "unknown algo" ∧
    sgd.AsyncSGDServer.Init (sgd.plainConfig .ADAGRAD 1000 4)
        { alpha := 1 / 10, beta := 1, lambda1 := 0, lambda2 := 0, tracker := false } =
      .error "unknown algo" :=
  ⟨rfl, rfl⟩

/-! ## The denominator of the proximal step -/

/-- C9 (as amended).  For every configured `minibatch = m` and `max_delay = d`, `Process`
uses minibatch size `m` and window `d` when the workload type is `TRAIN`; for any other type
it uses window `100000` and, whenever `10 * m` fits in a 32-bit signed `int`, minibatch size
`max (10 * m) 100000`; and it resets the in-flight and done counters to 0 before reading. -/
theorem sgd.AsyncSGDWorker.Process_setup :
    ∀ (R : Type) (conf : sgd.Config R) (type : sgd.WorkloadType),
      (sgd.AsyncSGDWorker.Process conf type).num_mb_fly_ = 0 ∧
      (sgd.AsyncSGDWorker.Process conf type).num_mb_done_ = 0 ∧
      (type = sgd.WorkloadType.TRAIN →
        (sgd.AsyncSGDWorker.Process conf type).mb_size = conf.minibatch ∧
        (sgd.AsyncSGDWorker.Process conf type).max_delay = conf.max_delay) ∧
      (type ≠ sgd.WorkloadType.TRAIN →
        (sgd.AsyncSGDWorker.Process conf type).max_delay = 100000 ∧
        (INT_MIN ≤ 10 * conf.minibatch → 10 * conf.minibatch ≤ INT_MAX →
          (sgd.AsyncSGDWorker.Process conf type).mb_size =
            max (10 * conf.minibatch) 100000)) := by
  intro R conf type
  refine ⟨rfl, rfl, ?_, ?_⟩
  · intro h
    simp [sgd.AsyncSGDWorker.Process, h]
  · intro h
    refine ⟨by simp [sgd.AsyncSGDWorker.Process, h], ?_⟩
    intro h1 h2
    simp only [sgd.AsyncSGDWorker.Process, h, if_false]
    rw [mul_comm, wrap32_eq_self _ h1 h2]

/-- Instance of C9 (as amended): a validation workload with `minibatch = 20000` is read in
minibatches of `200000` with window `100000`; a train workload with `minibatch = 20000` and
`max_delay = 4` keeps both. -/
theorem sgd.AsyncSGDWorker.Process_setup_witness :
    (sgd.WorkloadType.VAL ≠ sgd.WorkloadType.TRAIN ∧
      INT_MIN ≤ 10 * (sgd.plainConfig .FTRL 20000 4).minibatch ∧
      10 * (sgd.plainConfig .FTRL 20000 4).minibatch ≤ INT_MAX ∧
      (sgd.AsyncSGDWorker.Process (sgd.plainConfig .FTRL 20000 4) .VAL).mb_size =
        max (10 * (sgd.plainConfig .FTRL 20000 4).minibatch) 100000) ∧
    ((sgd.AsyncSGDWorker.Process (sgd.plainConfig .FTRL 20000 4) .TRAIN).mb_size =
        (sgd.plainConfig .FTRL 20000 4).minibatch ∧
      (sgd.AsyncSGDWorker.Process (sgd.plainConfig .FTRL 20000 4) .TRAIN).max_delay =
        (sgd.plainConfig .FTRL 20000 4).max_delay) :=
  ⟨⟨by decide, by decide, by decide,
      ((sgd.AsyncSGDWorker.Process_setup ℚ (sgd.plainConfig .FTRL 20000 4) .VAL).2.2.2
        (by decide)).2 (by decide) (by decide)⟩,
    (sgd.AsyncSGDWorker.Process_setup ℚ (sgd.plainConfig .FTRL 20000 4) .TRAIN).2.2.1 rfl⟩

/-- C9, as stated, fails: `minibatch = 214748365` is a 32-bit signed value, `10 * minibatch`
is `2147483650`, so `max (10 * minibatch) 100000 = 2147483650`, but the `int` product wraps
to a negative value and a validation workload is read with minibatch size `100000`. -/
theorem sgd.AsyncSGDWorker.Process_overflow :
    INT_MIN ≤ (sgd.plainConfig .FTRL 214748365 4).minibatch ∧
    (sgd.plainConfig .FTRL 214748365 4).minibatch ≤ INT_MAX ∧
    max (10 * (sgd.plainConfig .FTRL 214748365 4).minibatch) 100000 = 2147483650 ∧
    wrap32 ((sgd.plainConfig .FTRL 214748365 4).minibatch * 10) = -2147483646 ∧
    (sgd.AsyncSGDWorker.Process (sgd.plainConfig .FTRL 214748365 4) .VAL).mb_size = 100000 ∧
    (sgd.AsyncSGDWorker.Process (sgd.plainConfig .FTRL 214748365 4) .VAL).mb_size ≠
      max (10 * (sgd.plainConfig .FTRL 214748365 4).minibatch) 100000 := by
  refine ⟨by decide, by decide, by decide, by decide, by decide, by decide⟩

/-! ## Scheduler response handling -/

/-- C10.  For every worker response carrying a phase-progress payload (`cmd = kProcess`,
non-empty message), `ProcessResponse` merges the parsed progress into `prog_`, marks the
sender finished in the pool, then asks the pool for the next partition of the sender, and
sends a workload to the sender if and only if the pool returned one (`file_size > 0`); a
response whose `cmd` is not `kProcess` changes neither `prog_` nor the pool and sends
nothing. -/
theorem sgd.AsyncSGDScheduler.ProcessResponse_spec :
    ∀ (P : Type) (env : sgd.SchedulerEnv P) (s : sgd.AsyncSGDScheduler P)
      (response : sgd.Message),
      (response.cmd = sgd.kProcess → response.msg ≠ "" →
        let got := env.Get (env.Finish s.pool_ response.sender) response.sender
        let s1 := sgd.AsyncSGDScheduler.ProcessResponse env s response
        s1.prog_ = s.prog_.Merge (env.Parse response.msg) ∧
        s1.pool_ = got.1 ∧
        (got.2.file_size > 0 → s1.submitted = s.submitted ++
          [({ cmd := sgd.kProcess, msg := env.Serialize got.2 }, response.sender)]) ∧
        (¬ got.2.file_size > 0 → s1.submitted = s.submitted)) ∧
      (response.cmd ≠ sgd.kProcess →
        sgd.AsyncSGDScheduler.ProcessResponse env s response = s) := by
  intro P env s response
  refine ⟨?_, ?_⟩
  · intro hc hm
    simp only [sgd.AsyncSGDScheduler.ProcessResponse, hc, if_true, hm, ne_eq,
      not_false_eq_true]
    by_cases hf :
        (env.Get (env.Finish s.pool_ response.sender) response.sender).2.file_size > 0
    · simp [hf, sgd.AsyncSGDScheduler.SendWorkload]
    · simp [hf]
  · intro hc
    simp [sgd.AsyncSGDScheduler.ProcessResponse, hc]

/-- Instance of C10: a scheduler whose pool still holds one partition receives a progress
payload from worker `W0`; the progress is merged, the partition leaves the pool and is sent
to `W0`.  A `kSaveModel` response changes nothing. -/
theorem sgd.AsyncSGDScheduler.ProcessResponse_witness :
    (sgd.demoResponse.cmd = sgd.kProcess ∧ sgd.demoResponse.msg ≠ "" ∧
      (sgd.AsyncSGDScheduler.ProcessResponse sgd.queueEnv sgd.demoScheduler
        sgd.demoResponse).prog_ =
        Progress.zero.Merge { Progress.zero with num_ex := 3 } ∧
      (sgd.AsyncSGDScheduler.ProcessResponse sgd.queueEnv sgd.demoScheduler
        sgd.demoResponse).pool_ = [] ∧
      (sgd.AsyncSGDScheduler.ProcessResponse sgd.queueEnv sgd.demoScheduler
        sgd.demoResponse).submitted = [({ cmd := 1, msg := "part-1" }, "W0")]) ∧
    (({ sgd.demoResponse with cmd := sgd.kSaveModel } : sgd.Message).cmd ≠ sgd.kProcess ∧
      sgd.AsyncSGDScheduler.ProcessResponse sgd.queueEnv sgd.demoScheduler
        { sgd.demoResponse with cmd := sgd.kSaveModel } = sgd.demoScheduler) :=
  have h := sgd.AsyncSGDScheduler.ProcessResponse_spec (List sgd.Workload) sgd.queueEnv
    sgd.demoScheduler
  have h1 := (h sgd.demoResponse).1 rfl (by decide)
  ⟨⟨rfl, by decide, h1.1, h1.2.1, h1.2.2.1 (by decide)⟩,
    ⟨by decide, (h { sgd.demoResponse with cmd := sgd.kSaveModel }).2 (by decide)⟩⟩

end linear
end dmlc
